import Mathlib

/-!
Shallow embedding of the msg-parser property-decoding pipeline
(`src/parser/decode.rs`, `src/parser/stream.rs`, `src/lib.rs`).

Modelling conventions:
* Byte buffers are `List Nat` whose elements are intended to be `< 256`
  (a Rust `Vec<u8>`); where a theorem's meaning depends on the byte range
  it carries the hypothesis explicitly.
* Rust `String`s of decoded text are represented as `List Nat` of Unicode
  code points (so that UTF-16 surrogate pairing can be stated directly);
  stream names and type tags are `List Char`; the decimal time string is a
  Lean `String`.
* A Rust panic (out-of-bounds index / slice) is modelled by a dedicated
  result constructor; `u64` arithmetic overflow is modelled with wrapping
  (release-profile semantics, the behavior of the shipped wasm artifact).
* The `f64` arithmetic in `decode_ptyptime` is modelled exactly with
  integer arithmetic: IEEE-754 binary64 round-to-nearest-even, see the
  comments at `f64OfU64` and `f64DivTrunc10000`.
-/

/-- Decoded property values, from `enum DataType` in `src/parser/decode.rs`.
`PtypString`/`PtypString8` carry the decoded text as a list of Unicode code
points; `PtypTime` carries the decimal millisecond string. -/
inductive DataType where
  | PtypBinary : List Nat → DataType
  | PtypString : List Nat → DataType
  | PtypString8 : List Nat → DataType
  | PtypTime : String → DataType
deriving DecidableEq, Repr

/-- Decode errors, from `DataTypeError` in `src/parser/error.rs` as used by
`decode.rs`: `UnknownCode` carries the original tag text; `Utf16Err` is the
UTF-16 decode failure (its Rust payload, a `FromUtf16Error`, carries no
information we need). -/
inductive DataTypeError where
  | UnknownCode : List Char → DataTypeError
  | Utf16Err : DataTypeError
deriving DecidableEq, Repr

/-- Outcome of a decode call: `panicked` models a Rust panic (out-of-bounds
slice index), `failed` a returned `Err`, `ok` a returned `Ok` value. -/
inductive DResult where
  | panicked : DResult
  | failed : DataTypeError → DResult
  | ok : DataType → DResult
deriving DecidableEq, Repr

/-- The 16-bit code-unit grouping loop of `decode_ptypstring`
(`src/parser/decode.rs` lines 67-86): take the next byte `c1`; if it is zero
stop (before pairing); otherwise pair it with the following byte (or an
implicit zero when input is exhausted) as a little-endian `u16`. -/
def utf16Units : List Nat → List Nat
  | [] => []
  | [c1] => if c1 = 0 then [] else [c1]
  | c1 :: c2 :: rest =>
      if c1 = 0 then [] else (c1 + 256 * c2) :: utf16Units rest

/-- Rust `String::from_utf16` on a list of 16-bit code units: non-surrogate
units become code points; a high surrogate (0xD800-0xDBFF) must be followed
by a low surrogate (0xDC00-0xDFFF), the pair combining to a supplementary
code point; any unpaired surrogate is an error (`none`). -/
def utf16Decode : List Nat → Option (List Nat)
  | [] => some []
  | [u] => if u < 0xD800 ∨ 0xDFFF < u then some [u] else none
  | u :: l :: rest =>
      if u < 0xD800 ∨ 0xDFFF < u then
        Option.map (fun cs => u :: cs) (utf16Decode (l :: rest))
      else if u ≤ 0xDBFF then
        if 0xDC00 ≤ l ∧ l ≤ 0xDFFF then
          Option.map (fun cs => (0x10000 + (u - 0xD800) * 0x400 + (l - 0xDC00)) :: cs)
            (utf16Decode rest)
        else none
      else none

/-- Specification-side predicate: the code-unit sequence contains an invalid
(unpaired) surrogate sequence. -/
def hasUnpairedSurrogate : List Nat → Bool
  | [] => false
  | [u] => decide (0xD800 ≤ u ∧ u ≤ 0xDFFF)
  | u :: l :: rest =>
      if u < 0xD800 ∨ 0xDFFF < u then hasUnpairedSurrogate (l :: rest)
      else if u ≤ 0xDBFF then
        if 0xDC00 ≤ l ∧ l ≤ 0xDFFF then hasUnpairedSurrogate rest else true
      else true

/-- Specification-side total UTF-16 reading of a code-unit sequence
(meaningful on sequences without unpaired surrogates): surrogate pairs are
combined, everything else passes through. -/
def utf16Scalars : List Nat → List Nat
  | [] => []
  | [u] => [u]
  | u :: l :: rest =>
      if u < 0xD800 ∨ 0xDFFF < u then u :: utf16Scalars (l :: rest)
      else if u ≤ 0xDBFF ∧ 0xDC00 ≤ l ∧ l ≤ 0xDFFF then
        (0x10000 + (u - 0xD800) * 0x400 + (l - 0xDC00)) :: utf16Scalars rest
      else u :: l :: utf16Scalars rest

/-- Specification-side grouping following the spec's words for tag 0x001F:
group bytes into 16-bit little-endian code units and stop at the first zero
code unit (the whole unit, not just its low byte) or when input is
exhausted, an odd trailing byte being paired with an implicit zero. -/
def utf16UnitsSpec : List Nat → List Nat
  | [] => []
  | [c1] => if c1 = 0 then [] else [c1]
  | c1 :: c2 :: rest =>
      if c1 + 256 * c2 = 0 then [] else (c1 + 256 * c2) :: utf16UnitsSpec rest

/-- `decode_ptypstring` (`src/parser/decode.rs` lines 63-92): group the bytes
with the `utf16Units` loop, then `String::from_utf16`; a decode failure
becomes `DataTypeError::Utf16Err`. -/
def decode_ptypstring (buff : List Nat) : DResult :=
  match utf16Decode (utf16Units buff) with
  | some cps => .ok (.PtypString cps)
  | none => .failed .Utf16Err

/-- The byte loop of `decode_ptypstring8` (`src/parser/decode.rs` lines
99-112): each byte up to the first zero byte is pushed as the character with
that code point (`*c as char`). -/
def string8Chars : List Nat → List Nat
  | [] => []
  | c :: rest => if c = 0 then [] else c :: string8Chars rest

/-- `decode_ptypstring8` (`src/parser/decode.rs` lines 94-126): never fails. -/
def decode_ptypstring8 (buff : List Nat) : DResult :=
  .ok (.PtypString8 (string8Chars buff))

/-- `decode_ptypbinary` (`src/parser/decode.rs` lines 59-61): the bytes are
returned unchanged. -/
def decode_ptypbinary (buff : List Nat) : DResult :=
  .ok (.PtypBinary buff)

/-- Round the non-negative rational `num / den` (with `den > 0`) to the
nearest integer, ties to even: the rounding step used by IEEE-754
round-to-nearest-even once the target scale has been fixed. -/
def roundNE (num den : Nat) : Nat :=
  if 2 * (num % den) < den then num / den
  else if den < 2 * (num % den) then num / den + 1
  else if (num / den) % 2 = 0 then num / den else num / den + 1

/-- Fuel-driven bit length so that the kernel can evaluate it; the fuel is
an upper bound on the number of halvings. -/
def bitLenAux : Nat → Nat → Nat
  | 0, _ => 0
  | fuel + 1, n => if n = 0 then 0 else bitLenAux fuel (n / 2) + 1

/-- Number of bits of `n` (0 for 0); exact for every `n < 2^64`, the whole
range arising here. -/
def bitLen (n : Nat) : Nat :=
  bitLenAux 64 n

/-- Exact value of the Rust cast `n as f64` for `n : u64`: values below
`2^53` are exactly representable; larger values round to the nearest even
multiple of `2^(bitLen n - 53)` (IEEE-754 binary64, round-to-nearest-even;
no overflow is possible since `2^64` is far below the f64 maximum). The
result is always a natural number. -/
def f64OfU64 (n : Nat) : Nat :=
  if n < 2 ^ 53 then n
  else roundNE n (2 ^ (bitLen n - 53)) * 2 ^ (bitLen n - 53)

/-- Exact value of the Rust expression `(x_f64 / 10000_f64) as u64` where
`x ≤ 2^64` is the integer value of an f64 (as produced by `f64OfU64`).
The true quotient `q* = x / 10000` lies in `[2^(k-1), 2^k)` for
`k = bitLen (x / 10000) ≤ 51`, where binary64 numbers form the grid of
multiples of `2^(k-53)`; the correctly rounded quotient is therefore
`roundNE (x * 2^(53-k)) 10000 / 2^(53-k)` after truncation toward zero
(the `as u64` cast; saturation cannot trigger at these magnitudes). When
the significand rounds up to `2^53` the returned value `2^k` is still the
correctly rounded double. When `x / 10000 = 0` the quotient is at most
`9999/10000`, which rounds to a double strictly below 1, so the cast
yields 0. -/
def f64DivTrunc10000 (x : Nat) : Nat :=
  if x / 10000 = 0 then 0
  else roundNE (x * 2 ^ (53 - bitLen (x / 10000))) 10000
      / 2 ^ (53 - bitLen (x / 10000))

/-- Little-endian unsigned integer value of a byte list
(`u64::from_le_bytes` when the list has the first 8 bytes). -/
def readLE : List Nat → Nat
  | [] => 0
  | b :: rest => b + 256 * readLE rest

/-- `decode_ptyptime` (`src/parser/decode.rs` lines 128-135):
`buff[0..8].try_into().unwrap()` panics when fewer than 8 bytes are
available; otherwise the first 8 bytes are read as a little-endian `u64`,
divided by 10000 through `f64` arithmetic, cast back to `u64`, and
11644473599996 is subtracted (wrapping `u64` subtraction, release
semantics); the result is rendered in decimal. -/
def decode_ptyptime (buff : List Nat) : DResult :=
  if buff.length < 8 then .panicked
  else .ok (.PtypTime (Nat.repr
      ((f64DivTrunc10000 (f64OfU64 (readLE (buff.take 8)))
        + 2 ^ 64 - 11644473599996) % 2 ^ 64)))

/-- `PtypDecoder::decode_vec` (`src/parser/decode.rs` lines 48-56), and the
tag dispatch shared with `PtypDecoder::decode`, which first materializes the
entry's bytes and then performs the same match; `entry` here is that
materialized byte content. -/
def decode_vec (buff : List Nat) (code : List Char) : DResult :=
  if code = ("0x001F").data then decode_ptypstring buff
  else if code = ("0x001E").data then decode_ptypstring8 buff
  else if code = ("0x0102").data then decode_ptypbinary buff
  else if code = ("0x0040").data then decode_ptyptime buff
  else .failed (.UnknownCode code)

/-- Stream kinds, from `enum StreamType` in `src/parser/stream.rs`. -/
inductive StreamType where
  | SubStorage : StreamType
  | PropertyStream : StreamType
deriving DecidableEq, Repr

/-- Modelled from the spec: `StorageType` lives in `src/parser/storage.rs`,
which is not among the provided sources; per the spec it is the closed
variant RootEntry / Recipient(index) / Attachment(index). `Stream::create`
only clones it through, so its exact shape is immaterial to the claims. -/
inductive StorageType where
  | RootEntry : StorageType
  | Recipient : Nat → StorageType
  | Attachment : Nat → StorageType
deriving DecidableEq, Repr

/-- The `Stream` record of `src/parser/stream.rs`: parent storage, resolved
key, decoded value, and stream kind. (Named `MsgStream` because `Stream`
already exists in the ambient library.) -/
structure MsgStream where
  parent : StorageType
  key : List Char
  value : DataType
  streamKind : StreamType
deriving DecidableEq, Repr

/-- Modelled from the spec: `PropIdNameMap` lives in
`src/parser/constants.rs`, which is not among the provided sources; per the
spec it maps a 4-hex-digit property id to a canonical name, returning
absent for unrecognized ids. The claims quantify over every property map,
so it is kept abstract as a lookup function (`get_canonical_name`). -/
def PropIdNameMap := List Char → Option (List Char)

/-- Outcome of `Stream::create`: `cpanicked` models a Rust panic raised
inside it, `cnone` the `None` return, `csome` a constructed stream. -/
inductive CResult where
  | cpanicked : CResult
  | cnone : CResult
  | csome : MsgStream → CResult
deriving DecidableEq, Repr

/-- Rust `str::split('_')`: the pieces between underscore occurrences,
keeping empty pieces (leading, trailing, and between consecutive
underscores). -/
def splitUnderscores : List Char → List (List Char)
  | [] => [[]]
  | c :: rest =>
      if c = '_' then [] :: splitUnderscores rest
      else
        match splitUnderscores rest with
        | [] => [[c]]
        | p :: ps => (c :: p) :: ps

/-- `Stream::extract_id_and_datatype` (`src/parser/stream.rs` lines 28-36):
split the name on underscores, drop empty pieces, index piece 1 (a Rust
`Vec` index that panics when fewer than two pieces exist, modelled by
`none`), then slice its first four and last four characters (`&tag[..4]`
and `&tag[tag.len() - 4..]`, which panic when the piece is shorter than
four; names are ASCII here so byte and character indices coincide). -/
def extract_id_and_datatype (name : List Char) : Option (List Char × List Char) :=
  let parts := (splitUnderscores name).filter (fun p => 0 < p.length)
  match parts.get? 1 with
  | none => none
  | some tag =>
      if tag.length < 4 then none
      else some (("0x").data ++ tag.take 4, ("0x").data ++ tag.drop (tag.length - 4))

/-- `Stream::stream_type` (`src/parser/stream.rs` lines 38-44): the literal
properties stream name, else any name merely starting with `__substg1.0`,
else no stream type. -/
def stream_type (name : List Char) : Option StreamType :=
  if name = ("__properties_version1.0").data then some .PropertyStream
  else if List.isPrefixOf (("__substg1.0").data) name then some .SubStorage
  else none

/-- `Stream::create` (`src/parser/stream.rs` lines 46-84). `entry` is the
byte content of the directory entry (what `PtypDecoder::decode` reads out
of the `EntrySlice`), `prop_map` the canonical-name lookup. -/
def MsgStream.create (name : List Char) (entry : List Nat) (prop_map : PropIdNameMap)
    (parent : StorageType) : CResult :=
  match stream_type name with
  | some .SubStorage =>
      match extract_id_and_datatype name with
      | none => .cpanicked
      | some (prop_id, prop_datatype) =>
          match prop_map prop_id with
          | none => .cnone
          | some key =>
              match decode_vec entry prop_datatype with
              | .panicked => .cpanicked
              | .failed _ => .cnone
              | .ok value => .csome ⟨parent, key, value, .SubStorage⟩
  | some .PropertyStream =>
      match decode_vec entry (("0x0102").data) with
      | .panicked => .cpanicked
      | .failed _ => .cnone
      | .ok value => .csome ⟨parent, name, value, .PropertyStream⟩
  | none => .cnone

/-- `jsonFromUint8Array` (`src/lib.rs` lines 12-17), parameterized over the
parser internals (`Outlook::from_slice` and `Outlook::to_json` live in
parser modules not among the provided sources): on parse success the JSON
text (its `.unwrap()` panic on a serialization error modelled by `none`),
on any parse failure the fixed fallback document. -/
def jsonFromUint8Array {O E : Type} (from_slice : List Nat → Except E O)
    (to_json : O → Option String) (slice : List Nat) : Option String :=
  match from_slice slice with
  | .ok outlook => to_json outlook
  | .error _ => some ("\x7b\"error\": true\x7d")

example : extract_id_and_datatype ("__substg1.0_3701000D").data =
    some (("0x3701").data, ("0x000D").data) := by decide
example : extract_id_and_datatype ("__substg1.0_1016102F").data =
    some (("0x1016").data, ("0x102F").data) := by decide
example : stream_type ("__recip_version1.0_#00000000").data = none := by decide
example : stream_type ("__substg1.0_3701000D").data = some .SubStorage := by decide
example : stream_type ("__properties_version1.0").data = some .PropertyStream := by decide
example : MsgStream.create ("__substg1.0").data [] (fun _ => none) .RootEntry = .cpanicked := by decide
example : MsgStream.create ("__properties_version1.0").data [7, 8] (fun _ => none) .RootEntry =
    .csome ⟨.RootEntry, ("__properties_version1.0").data, .PtypBinary [7, 8], .PropertyStream⟩ := by decide
example : MsgStream.create ("__substg1.0_0C1F001F").data [65, 0]
    (fun p => if p = ("0x0C1F").data then some (("SenderEmailAddress").data) else none) .RootEntry =
    .csome ⟨.RootEntry, ("SenderEmailAddress").data, .PtypString [65], .SubStorage⟩ := by decide
example : jsonFromUint8Array (fun (_ : List Nat) => (Except.error () : Except Unit Unit))
    (fun _ => some "") [] = some ("\x7b\"error\": true\x7d") := by decide

example : decode_ptyptime [0, 0, 0, 0, 0, 0, 0, 0] = .ok (.PtypTime "18446732429235951620") := by decide
example : readLE [255, 255, 99, 167, 179, 182, 224, 13] = 999999999999999999 := by decide
example : f64OfU64 999999999999999999 = 1000000000000000000 := by decide
example : f64DivTrunc10000 1000000000000000000 = 100000000000000 := by decide
example : decode_ptyptime [255, 255, 99, 167, 179, 182, 224, 13] = .ok (.PtypTime "88355526400004") := by decide
example : 999999999999999999 / 10000 - 11644473599996 = 88355526400003 := by decide
example : utf16Units [0x51, 0x00, 0x77, 0x00] = [0x51, 0x77] := by decide
example : utf16Units [0x00, 0x01] = [] := by decide
example : utf16UnitsSpec [0x00, 0x01] = [0x0100] := by decide
example : decode_ptypstring [0x52, 0x00, 0xe9, 0x00] = .ok (.PtypString [0x52, 0xe9]) := by decide
example : decode_ptypstring [0x01, 0xD8] = .failed .Utf16Err := by decide
example : decode_ptypstring [0x01, 0xD8, 0x37, 0xDC] = .ok (.PtypString [0x10437]) := by decide

/-- Induction principle matching the two-units-at-a-time recursions above. -/
def twoStepInduction {P : List Nat → Prop} (h0 : P []) (h1 : ∀ u, P [u])
    (h2 : ∀ u l rest, P rest → P (l :: rest) → P (u :: l :: rest)) :
    ∀ us, P us
  | [] => h0
  | [u] => h1 u
  | u :: l :: rest =>
      h2 u l rest (twoStepInduction h0 h1 h2 rest) (twoStepInduction h0 h1 h2 (l :: rest))

/-- `String::from_utf16` succeeds exactly on code-unit sequences without an
unpaired surrogate, and then yields the scalar reading of the sequence. -/
theorem utf16Decode_eq_scalars (us : List Nat) :
    utf16Decode us =
      if hasUnpairedSurrogate us then none else some (utf16Scalars us) := by
  induction us using twoStepInduction with
  | h0 => simp [utf16Decode, hasUnpairedSurrogate, utf16Scalars]
  | h1 u =>
      by_cases h : u < 0xD800 ∨ 0xDFFF < u
      · have hns : ¬(0xD800 ≤ u ∧ u ≤ 0xDFFF) := by omega
        simp [utf16Decode, hasUnpairedSurrogate, utf16Scalars, h, hns]
      · have hs : 0xD800 ≤ u ∧ u ≤ 0xDFFF := by omega
        simp [utf16Decode, hasUnpairedSurrogate, h, hs]
  | h2 u l rest ih1 ih2 =>
      by_cases h : u < 0xD800 ∨ 0xDFFF < u
      · rw [show utf16Decode (u :: l :: rest)
              = Option.map (fun cs => u :: cs) (utf16Decode (l :: rest)) by
            simp [utf16Decode, h]]
        rw [ih2]
        by_cases hrest : hasUnpairedSurrogate (l :: rest) <;>
          simp [hasUnpairedSurrogate, utf16Scalars, h, hrest]
      · by_cases hhi : u ≤ 0xDBFF
        · by_cases hlo : 0xDC00 ≤ l ∧ l ≤ 0xDFFF
          · rw [show utf16Decode (u :: l :: rest)
                  = Option.map
                      (fun cs => (0x10000 + (u - 0xD800) * 0x400 + (l - 0xDC00)) :: cs)
                      (utf16Decode rest) by
                simp [utf16Decode, h, hhi, hlo]]
            rw [ih1]
            by_cases hrest : hasUnpairedSurrogate rest <;>
              simp [hasUnpairedSurrogate, utf16Scalars, h, hhi, hlo, hrest]
          · simp [utf16Decode, hasUnpairedSurrogate, h, hhi, hlo]
        · simp [utf16Decode, hasUnpairedSurrogate, h, hhi]

/-- Claim C1 (amended): decoding with tag 0x001F groups the bytes into
16-bit little-endian code units, stopping when the low (first) byte of the
next unit is zero — checked before pairing, so a unit whose low byte is
zero but whose high byte is not is never formed — or when input is
exhausted, an odd trailing byte being paired with an implicit zero; the
unit sequence is decoded as UTF-16 text, and the operation fails with
`DataTypeError::Utf16Err` exactly when that sequence contains an unpaired
surrogate. -/
theorem c1_string_decode (buff : List Nat) :
    (decode_ptypstring buff = DResult.failed DataTypeError.Utf16Err ↔
      hasUnpairedSurrogate (utf16Units buff) = true)
    ∧ (hasUnpairedSurrogate (utf16Units buff) = false →
      decode_ptypstring buff
        = DResult.ok (DataType.PtypString (utf16Scalars (utf16Units buff)))) := by
  unfold decode_ptypstring
  rw [utf16Decode_eq_scalars]
  constructor
  · by_cases h : hasUnpairedSurrogate (utf16Units buff) <;> simp [h]
  · intro h
    simp [h]

/-- Claim C1 witness: on the null-free UTF-16LE bytes of `"Qw"` the decode
succeeds with the two expected code points. -/
theorem c1_string_decode_witness :
    hasUnpairedSurrogate (utf16Units [81, 0, 119, 0]) = false
    ∧ decode_ptypstring [81, 0, 119, 0] = DResult.ok (DataType.PtypString [81, 119]) :=
  ⟨by decide, (c1_string_decode [81, 0, 119, 0]).2 (by decide)⟩

/-- Claim C1 counterexample: per the claim's grouping rule the byte buffer
`[0x00, 0x01]` forms the single nonzero code unit 0x0100 ("Ā"), which is
surrogate-free and decodes to the one-character text `[0x0100]`; the code
instead stops at the zero low byte before pairing and returns the empty
text. -/
theorem c1_counterexample :
    utf16UnitsSpec [0, 1] = [256]
    ∧ hasUnpairedSurrogate [256] = false
    ∧ utf16Scalars [256] = [256]
    ∧ decode_ptypstring [0, 1] = DResult.ok (DataType.PtypString [])
    ∧ decode_ptypstring [0, 1] ≠ DResult.ok (DataType.PtypString [256]) := by
  decide

/-- The String8 byte loop keeps exactly the bytes before the first zero. -/
theorem string8Chars_eq_takeWhile (buff : List Nat) :
    string8Chars buff = buff.takeWhile (fun b => b != 0) := by
  induction buff with
  | nil => rfl
  | cons c rest ih =>
      by_cases h : c = 0 <;> simp [string8Chars, List.takeWhile_cons, h, ih]

/-- Claim C2 helper is below; Claim C8: decoding with tag 0x001E always
succeeds, and the resulting text is, character for character, the list of
bytes before the first zero byte, each byte becoming the character with
that code point. -/
theorem c8_string8_decode (buff : List Nat) :
    decode_ptypstring8 buff
      = DResult.ok (DataType.PtypString8 (buff.takeWhile (fun b => b != 0))) := by
  unfold decode_ptypstring8
  rw [string8Chars_eq_takeWhile]

/-- A number below `2^k` has bit length at most `k` (given enough fuel). -/
theorem bitLenAux_le (fuel : Nat) :
    ∀ k n, n < 2 ^ k → k ≤ fuel → bitLenAux fuel n ≤ k := by
  induction fuel with
  | zero => intro k n _ _; simp [bitLenAux]
  | succ fuel ih =>
      intro k n h hk
      by_cases hn : n = 0
      · simp [bitLenAux, hn]
      · have hk1 : 1 ≤ k := by
          by_contra hc
          have hk0 : k = 0 := by omega
          subst hk0
          simp at h
          omega
        have hpow : (2:Nat) ^ k = 2 * 2 ^ (k - 1) := by
          conv_lhs => rw [show k = (k - 1) + 1 by omega]
          rw [pow_succ]
          ring
        have h2 : n / 2 < 2 ^ (k - 1) := by omega
        have := ih (k - 1) (n / 2) h2 (by omega)
        simp only [bitLenAux, hn, if_false]
        omega

/-- The rounded quotient is within half a unit of the true quotient. -/
theorem roundNE_bounds (num den : Nat) (hden : 0 < den) :
    2 * num ≤ 2 * (den * roundNE num den) + den
    ∧ 2 * (den * roundNE num den) ≤ 2 * num + den := by
  have hq : den * (num / den) + num % den = num := Nat.div_add_mod num den
  have hr : num % den < den := Nat.mod_lt _ hden
  unfold roundNE
  generalize hQ : num / den = q at hq ⊢
  generalize hR : num % den = r at hq hr ⊢
  split_ifs with h1 h2 h3
  all_goals try rw [Nat.mul_add, Nat.mul_one]
  all_goals generalize hA : den * q = A at hq ⊢
  all_goals omega

/-- Rounding an exact multiple is exact. -/
theorem roundNE_exact (x den : Nat) (hden : 0 < den) :
    roundNE (den * x) den = x := by
  unfold roundNE
  simp [Nat.mul_div_cancel_left _ hden, Nat.mul_mod_right, hden]

/-- The `n as f64` cast is the identity below `2^53`. -/
theorem f64OfU64_small (n : Nat) (h : n < 2 ^ 53) : f64OfU64 n = n := by
  unfold f64OfU64
  rw [if_pos h]

/-- Rounding an exact multiple is exact, divisibility form. -/
theorem roundNE_exact_dvd (num den : Nat) (hden : 0 < den) (hdvd : den ∣ num) :
    roundNE num den = num / den := by
  obtain ⟨c, hc⟩ := hdvd
  subst hc
  rw [roundNE_exact c den hden, Nat.mul_div_cancel_left c hden]

/-- The `n as f64` cast is the identity on multiples of 16 below `2^57`:
at most the low four bits are discarded by the rounding, and they are
zero. -/
theorem f64OfU64_mul16 (n : Nat) (h57 : n < 2 ^ 57) (h16 : n % 16 = 0) :
    f64OfU64 n = n := by
  unfold f64OfU64
  by_cases h : n < 2 ^ 53
  · rw [if_pos h]
  · rw [if_neg h]
    have hbl : bitLen n ≤ 57 := bitLenAux_le 64 57 n h57 (by norm_num)
    have hdvd : 2 ^ (bitLen n - 53) ∣ n := by
      have h16d : (16:Nat) ∣ n := Nat.dvd_of_mod_eq_zero h16
      have h4 : (2:Nat) ^ (bitLen n - 53) ∣ 2 ^ 4 := pow_dvd_pow 2 (by omega)
      exact dvd_trans h4 h16d
    rw [roundNE_exact_dvd n _ (Nat.pos_pow_of_pos _ (by norm_num)) hdvd,
      Nat.div_mul_cancel hdvd]

/-- Truncating the correctly rounded f64 quotient agrees with integer
division by 10000 for inputs below `2^53`, and for whole-millisecond
inputs (multiples of 10000) below `2^57`. -/
theorem f64DivTrunc10000_exact (x : Nat)
    (h : x < 2 ^ 53 ∨ (x % 10000 = 0 ∧ x < 2 ^ 57)) :
    f64DivTrunc10000 x = x / 10000 := by
  unfold f64DivTrunc10000
  by_cases h0 : x / 10000 = 0
  · rw [if_pos h0, h0]
  · rw [if_neg h0]
    by_cases hr0 : x % 10000 = 0
    · have hdvd : (10000:Nat) ∣ x := Nat.dvd_of_mod_eq_zero hr0
      obtain ⟨c, hc⟩ := hdvd
      have hcq : x / 10000 = c := by
        rw [hc, Nat.mul_div_cancel_left c (by norm_num)]
      rw [hcq, hc,
        show 10000 * c * 2 ^ (53 - bitLen c) = 10000 * (c * 2 ^ (53 - bitLen c)) by ring,
        roundNE_exact _ 10000 (by norm_num),
        Nat.mul_div_cancel _ (Nat.pos_pow_of_pos _ (by norm_num))]
    · have h53 : x < 2 ^ 53 := by
        rcases h with h | h
        · exact h
        · exact absurd h.1 hr0
      have hfq40 : x / 10000 < 2 ^ 40 := by
        rw [Nat.div_lt_iff_lt_mul (by norm_num)]
        calc x < 2 ^ 53 := h53
          _ ≤ 2 ^ 40 * 10000 := by norm_num
      have hk40 : bitLen (x / 10000) ≤ 40 := bitLenAux_le 64 40 _ hfq40 (by norm_num)
      set m := 53 - bitLen (x / 10000) with hm
      have hm13 : 13 ≤ m := by omega
      have hP : (8192:Nat) ≤ 2 ^ m := by
        calc (8192:Nat) = 2 ^ 13 := by norm_num
          _ ≤ 2 ^ m := Nat.pow_le_pow_right (by norm_num) hm13
      have hb := roundNE_bounds (x * 2 ^ m) 10000 (by norm_num)
      have hq : 10000 * (x / 10000) + x % 10000 = x := Nat.div_add_mod x 10000
      have hr2 : x % 10000 ≤ 9999 := by
        have := Nat.mod_lt x (show 0 < 10000 by norm_num)
        omega
      have hY1 : 2 ^ m ≤ x % 10000 * 2 ^ m := Nat.le_mul_of_pos_left _ (by omega)
      have hY2 : x % 10000 * 2 ^ m ≤ 9999 * 2 ^ m := Nat.mul_le_mul_right _ hr2
      have hxP : x * 2 ^ m = 10000 * (x / 10000 * 2 ^ m) + x % 10000 * 2 ^ m := by
        conv_lhs => rw [← hq]
        ring
      generalize hs : roundNE (x * 2 ^ m) 10000 = s at hb ⊢
      rw [hxP] at hb
      have hXle : x / 10000 * 2 ^ m ≤ s := by
        generalize hX : x / 10000 * 2 ^ m = X at hb ⊢
        generalize hY : x % 10000 * 2 ^ m = Y at hb hY1 hY2
        generalize hP2 : (2:Nat) ^ m = P at hY1 hY2 hP
        omega
      have hXlt : s < (x / 10000 + 1) * 2 ^ m := by
        rw [Nat.add_mul, Nat.one_mul]
        generalize hX : x / 10000 * 2 ^ m = X at hb ⊢
        generalize hY : x % 10000 * 2 ^ m = Y at hb hY1 hY2
        generalize hP2 : (2:Nat) ^ m = P at hY1 hY2 hP ⊢
        omega
      exact Nat.div_eq_of_lt_le hXle hXlt

/-- Claim C2 (amended): for a byte buffer of length at least 8 whose
first-8-byte little-endian value `n` is below `2^53`, or is a
whole-millisecond FILETIME (a multiple of 10000) below `2^57`, and whose
quotient `n / 10000` is at least 11644473599996, decoding with tag 0x0040
emits the decimal text of `n / 10000 - 11644473599996`. Outside that range
the `f64` division detour can shift the quotient and the wrapping `u64`
subtraction misrenders pre-1970 values, so the claim's arithmetic is not
reproduced exactly for every 8-byte value. -/
theorem c2_time_decode (buff : List Nat) (h8 : 8 ≤ buff.length)
    (hrange : readLE (buff.take 8) < 2 ^ 53
      ∨ (readLE (buff.take 8) % 10000 = 0 ∧ readLE (buff.take 8) < 2 ^ 57))
    (hoff : 11644473599996 ≤ readLE (buff.take 8) / 10000) :
    decode_ptyptime buff = DResult.ok (DataType.PtypTime
      (Nat.repr (readLE (buff.take 8) / 10000 - 11644473599996))) := by
  unfold decode_ptyptime
  rw [if_neg (by omega)]
  have hid : f64OfU64 (readLE (buff.take 8)) = readLE (buff.take 8) := by
    rcases hrange with h | h
    · exact f64OfU64_small _ h
    · exact f64OfU64_mul16 _ h.2 (by omega)
  rw [hid, f64DivTrunc10000_exact _ hrange]
  have hlt : readLE (buff.take 8) / 10000 < 2 ^ 64 := by
    rcases hrange with h | h
    · calc readLE (buff.take 8) / 10000 ≤ readLE (buff.take 8) := Nat.div_le_self _ _
        _ < 2 ^ 53 := h
        _ ≤ 2 ^ 64 := by norm_num
    · calc readLE (buff.take 8) / 10000 ≤ readLE (buff.take 8) := Nat.div_le_self _ _
        _ < 2 ^ 57 := h.2
        _ ≤ 2 ^ 64 := by norm_num
  have harg : (readLE (buff.take 8) / 10000 + 2 ^ 64 - 11644473599996) % 2 ^ 64
      = readLE (buff.take 8) / 10000 - 11644473599996 := by
    have h64 : (2:Nat) ^ 64 = 18446744073709551616 := by norm_num
    omega
  rw [harg]

/-- Claim C2 witness: the FILETIME value 132534144000000000 (a whole
number of milliseconds) decodes to the decimal string "1608940800004". -/
theorem c2_time_decode_witness :
    8 ≤ ([0, 0, 187, 13, 26, 219, 214, 1] : List Nat).length
    ∧ readLE (([0, 0, 187, 13, 26, 219, 214, 1] : List Nat).take 8) % 10000 = 0
    ∧ readLE (([0, 0, 187, 13, 26, 219, 214, 1] : List Nat).take 8) < 2 ^ 57
    ∧ 11644473599996 ≤ readLE (([0, 0, 187, 13, 26, 219, 214, 1] : List Nat).take 8) / 10000
    ∧ decode_ptyptime [0, 0, 187, 13, 26, 219, 214, 1]
        = DResult.ok (DataType.PtypTime "1608940800004") := by
  refine ⟨by decide, by decide, by decide, by decide, ?_⟩
  have h := c2_time_decode [0, 0, 187, 13, 26, 219, 214, 1] (by decide)
    (Or.inr ⟨by decide, by decide⟩) (by decide)
  rw [h]
  decide

/-- Claim C2 counterexample: for the 8-byte buffer holding the value
10^18 - 1, integer division by 10000 followed by the subtraction yields
88355526400003, but the code (whose division runs through f64, rounding
10^18 - 1 up to 10^18) emits "88355526400004". -/
theorem c2_counterexample :
    readLE [255, 255, 99, 167, 179, 182, 224, 13] = 999999999999999999
    ∧ 999999999999999999 / 10000 - 11644473599996 = 88355526400003
    ∧ Nat.repr 88355526400003 = "88355526400003"
    ∧ decode_ptyptime [255, 255, 99, 167, 179, 182, 224, 13]
        = DResult.ok (DataType.PtypTime "88355526400004")
    ∧ ("88355526400004" : String) ≠ "88355526400003" := by
  decide

/-- Claim C4: decoding with tag 0x0040 requires at least 8 input bytes —
on shorter input the slice `buff[0..8]` panics (precondition violation) —
and under the precondition of at least 8 bytes it does not panic and
returns a successful result. -/
theorem c4_time_guard (buff : List Nat) :
    (buff.length < 8 → decode_ptyptime buff = DResult.panicked)
    ∧ (8 ≤ buff.length →
      ∃ s, decode_ptyptime buff = DResult.ok (DataType.PtypTime s)) := by
  constructor
  · intro h
    unfold decode_ptyptime
    rw [if_pos h]
  · intro h
    unfold decode_ptyptime
    rw [if_neg (by omega)]
    exact ⟨_, rfl⟩

/-- Claim C4 witness: an 8-byte input decodes successfully. -/
theorem c4_time_guard_witness :
    8 ≤ ([1, 2, 3, 4, 5, 6, 7, 8] : List Nat).length
    ∧ ∃ s, decode_ptyptime [1, 2, 3, 4, 5, 6, 7, 8]
        = DResult.ok (DataType.PtypTime s) :=
  ⟨by decide, (c4_time_guard [1, 2, 3, 4, 5, 6, 7, 8]).2 (by decide)⟩

/-- Claim C7: for every tag other than the four recognized codes 0x001F,
0x001E, 0x0102, 0x0040, decoding fails with `UnknownCode` carrying the
original tag text, for every byte content. -/
theorem c7_unknown_code (buff : List Nat) (code : List Char)
    (h1f : code ≠ ("0x001F").data) (h1e : code ≠ ("0x001E").data)
    (h02 : code ≠ ("0x0102").data) (h40 : code ≠ ("0x0040").data) :
    decode_vec buff code = DResult.failed (DataTypeError.UnknownCode code) := by
  unfold decode_vec
  rw [if_neg h1f, if_neg h1e, if_neg h02, if_neg h40]

/-- Claim C7 witness: the tag "1234" fails with `UnknownCode "1234"`. -/
theorem c7_unknown_code_witness :
    ("1234").data ≠ ("0x001F").data
    ∧ decode_vec [0, 1, 2] (("1234").data)
        = DResult.failed (DataTypeError.UnknownCode (("1234").data)) :=
  ⟨by decide, c7_unknown_code [0, 1, 2] (("1234").data)
    (by decide) (by decide) (by decide) (by decide)⟩

/-- Claim C3 (amended): a stream name that is not exactly
`"__properties_version1.0"` and does not start with `"__substg1.0"`
always yields absent from `MsgStream.create`, for every entry content,
property map and parent storage. (The claim's broader statement fails:
a name that starts with `"__substg1.0"` without continuing in the
underscore-and-8-hex-digit convention makes `extract_id_and_datatype`
panic, see the counterexample.) -/
theorem c3_unmatched_name (name : List Char) (entry : List Nat)
    (prop_map : PropIdNameMap) (parent : StorageType)
    (hp : name ≠ ("__properties_version1.0").data)
    (hs : List.isPrefixOf (("__substg1.0").data) name = false) :
    MsgStream.create name entry prop_map parent = CResult.cnone := by
  have hst : stream_type name = none := by
    unfold stream_type
    rw [if_neg hp, if_neg (by simp [hs])]
  unfold MsgStream.create
  rw [hst]

/-- Claim C3 witness: a recipient-container name (which matches neither
convention) yields absent. -/
theorem c3_unmatched_name_witness :
    ("__recip_version1.0_#00000000").data ≠ ("__properties_version1.0").data
    ∧ List.isPrefixOf (("__substg1.0").data) (("__recip_version1.0_#00000000").data) = false
    ∧ MsgStream.create (("__recip_version1.0_#00000000").data) [1, 2]
        (fun _ => some (("X").data)) StorageType.RootEntry = CResult.cnone :=
  ⟨by decide, by decide,
    c3_unmatched_name _ [1, 2] _ _ (by decide) (by decide)⟩

/-- Claim C3 counterexample: the name `"__substg1.0"` matches neither
recognized convention of the claim (it lacks the underscore and 8-hex-digit
tag), yet `MsgStream.create` does not return absent: the out-of-bounds
`Vec` index in `extract_id_and_datatype` panics. -/
theorem c3_counterexample :
    ("__substg1.0" : String).data ≠ ("__properties_version1.0").data
    ∧ MsgStream.create (("__substg1.0").data) [] (fun _ => none) StorageType.RootEntry
        = CResult.cpanicked
    ∧ MsgStream.create (("__substg1.0").data) [] (fun _ => none) StorageType.RootEntry
        ≠ CResult.cnone := by
  decide

/-- Claim C9: whenever the parse fails, the top-level entry point returns
the fixed fallback document, with no partial data and no error detail. -/
theorem c9_error_fallback {O E : Type} (from_slice : List Nat → Except E O)
    (to_json : O → Option String) (slice : List Nat) (e : E)
    (h : from_slice slice = Except.error e) :
    jsonFromUint8Array from_slice to_json slice
      = some ("\x7b\"error\": true\x7d") := by
  unfold jsonFromUint8Array
  rw [h]

/-- Claim C9 witness: a parser that always fails makes the entry point
return the fallback document. -/
theorem c9_error_fallback_witness :
    (fun (_ : List Nat) => (Except.error () : Except Unit Unit)) [] = Except.error ()
    ∧ jsonFromUint8Array (fun (_ : List Nat) => (Except.error () : Except Unit Unit))
        (fun _ => some "") [] = some ("\x7b\"error\": true\x7d") :=
  ⟨rfl, c9_error_fallback _ _ [] () rfl⟩

/-- A list is a (boolean) prefix of itself followed by anything. -/
theorem isPrefixOf_append_self {α : Type} [BEq α] [LawfulBEq α] (l t : List α) :
    List.isPrefixOf l (l ++ t) = true := by
  induction l with
  | nil => simp [List.isPrefixOf]
  | cons a l ih => simp [ih]

/-- Splitting the concrete prefix `"__substg1.0_"` peels off two empty
pieces and the piece `"substg1.0"`, continuing with the split of the
remainder. -/
theorem splitUnderscores_fixed (t : List Char) :
    splitUnderscores (("__substg1.0_").data ++ t)
      = [] :: [] :: ("substg1.0").data :: splitUnderscores t := rfl

/-- Splitting an underscore-free nonempty list yields that single piece. -/
theorem splitUnderscores_no_underscore (t : List Char) (h : '_' ∉ t)
    (hne : t ≠ []) : splitUnderscores t = [t] := by
  induction t with
  | nil => exact absurd rfl hne
  | cons c rest ih =>
      have hc : ¬(c = '_') := by
        intro e
        exact h (e ▸ List.mem_cons_self _ _)
      by_cases hr : rest = []
      · subst hr
        simp [splitUnderscores, hc]
      · have hrec := ih (fun hm => h (List.mem_cons_of_mem _ hm)) hr
        simp [splitUnderscores, hc, hrec]

/-- A hexadecimal digit character. -/
def isHexDigit (c : Char) : Bool :=
  decide (('0' ≤ c ∧ c ≤ '9') ∨ ('A' ≤ c ∧ c ≤ 'F') ∨ ('a' ≤ c ∧ c ≤ 'f'))

/-- Hexadecimal digits are not underscores. -/
theorem isHexDigit_ne_underscore {c : Char} (h : isHexDigit c = true) :
    c ≠ '_' := by
  intro e
  subst e
  exact absurd h (by decide)

/-- Claim C5: for every well-formed `"__substg1.0_"` name whose property id
is absent from the property map, `MsgStream.create` returns absent for
every entry byte content (so the property type decoder cannot contribute
anything to the outcome: the lookup miss decides it alone). -/
theorem c5_unknown_id (t : List Char) (entry : List Nat)
    (prop_map : PropIdNameMap) (parent : StorageType)
    (hlen : t.length = 8) (hhex : ∀ c ∈ t, isHexDigit c = true)
    (hmiss : prop_map (("0x").data ++ t.take 4) = none) :
    MsgStream.create (("__substg1.0_").data ++ t) entry prop_map parent
      = CResult.cnone := by
  have hne : ("__substg1.0_").data ++ t ≠ ("__properties_version1.0").data := by
    intro e
    have hlen2 := congrArg List.length e
    rw [List.length_append, hlen] at hlen2
    have h12 : (("__substg1.0_").data).length = 12 := rfl
    have h23 : (("__properties_version1.0").data).length = 23 := rfl
    rw [h12, h23] at hlen2
    omega
  have hpre : List.isPrefixOf (("__substg1.0").data) (("__substg1.0_").data ++ t)
      = true := by
    have hassoc : ("__substg1.0_").data ++ t = ("__substg1.0").data ++ ('_' :: t) := rfl
    rw [hassoc]
    exact isPrefixOf_append_self _ _
  have hst : stream_type (("__substg1.0_").data ++ t) = some StreamType.SubStorage := by
    unfold stream_type
    rw [if_neg hne, if_pos hpre]
  have hnu : '_' ∉ t := fun hm => isHexDigit_ne_underscore (hhex _ hm) rfl
  have htne : t ≠ [] := by
    intro e
    rw [e] at hlen
    simp at hlen
  have hsplit : splitUnderscores (("__substg1.0_").data ++ t)
      = [[], [], ("substg1.0").data, t] := by
    rw [splitUnderscores_fixed, splitUnderscores_no_underscore t hnu htne]
  have hpos : 0 < t.length := by omega
  have hfil : ([[], [], ("substg1.0").data, t] : List (List Char)).filter
      (fun p => 0 < p.length) = [("substg1.0").data, t] := by
    simp [List.filter_cons, hpos]
  have hex : extract_id_and_datatype (("__substg1.0_").data ++ t)
      = some (("0x").data ++ t.take 4, ("0x").data ++ t.drop (t.length - 4)) := by
    unfold extract_id_and_datatype
    rw [hsplit, hfil]
    have hget : ([("substg1.0").data, t] : List (List Char)).get? 1 = some t := rfl
    simp only [hget]
    rw [if_neg (by omega)]
  unfold MsgStream.create
  rw [hst, hex]
  have hmiss2 : prop_map ('0' :: 'x' :: List.take 4 t) = none := hmiss
  simp [hmiss2]

/-- Claim C5 witness: the well-formed name `"__substg1.0_0C1F001F"` with an
empty property map yields absent regardless of the entry bytes. -/
theorem c5_unknown_id_witness :
    (("__substg1.0_").data ++ ("0C1F001F").data = ("__substg1.0_0C1F001F").data)
    ∧ (("0C1F001F").data).length = 8
    ∧ (∀ c ∈ ("0C1F001F").data, isHexDigit c = true)
    ∧ MsgStream.create (("__substg1.0_0C1F001F").data) [1, 2, 3]
        (fun _ => none) StorageType.RootEntry = CResult.cnone := by
  refine ⟨by decide, by decide, by decide, ?_⟩
  have h := c5_unknown_id (("0C1F001F").data) [1, 2, 3] (fun _ => none)
    StorageType.RootEntry (by decide) (by decide) rfl
  exact h

/-- Claim C6: whenever the property type decoder returns an error inside
`MsgStream.create` — in the sub-storage branch after a successful name
split and id lookup, or in the property-stream branch — the operation
returns absent rather than propagating the error. -/
theorem c6_decode_error_dropped (name : List Char) (entry : List Nat)
    (prop_map : PropIdNameMap) (parent : StorageType) :
    (∀ pid pty key, stream_type name = some StreamType.SubStorage →
      extract_id_and_datatype name = some (pid, pty) →
      prop_map pid = some key →
      (∃ e, decode_vec entry pty = DResult.failed e) →
      MsgStream.create name entry prop_map parent = CResult.cnone)
    ∧ (stream_type name = some StreamType.PropertyStream →
      (∃ e, decode_vec entry (("0x0102").data) = DResult.failed e) →
      MsgStream.create name entry prop_map parent = CResult.cnone) := by
  constructor
  · rintro pid pty key hst hex hkey ⟨e, he⟩
    unfold MsgStream.create
    rw [hst, hex]
    simp only [hkey, he]
  · rintro hst ⟨e, he⟩
    unfold MsgStream.create
    rw [hst]
    simp only [he]

/-- Claim C6 witness: the name `"__substg1.0_0C1F9999"` resolves to a known
property id but carries the unrecognized type tag "0x9999", whose decode
error is swallowed into an absent result. -/
theorem c6_decode_error_dropped_witness :
    decode_vec [1, 2] (("0x9999").data)
      = DResult.failed (DataTypeError.UnknownCode (("0x9999").data))
    ∧ MsgStream.create (("__substg1.0_0C1F9999").data) [1, 2]
        (fun p => if p = ("0x0C1F").data then some (("SenderEmailAddress").data) else none)
        StorageType.RootEntry = CResult.cnone := by
  refine ⟨by decide, ?_⟩
  exact (c6_decode_error_dropped (("__substg1.0_0C1F9999").data) [1, 2]
      (fun p => if p = ("0x0C1F").data then some (("SenderEmailAddress").data) else none)
      StorageType.RootEntry).1
    (("0x0C1F").data) (("0x9999").data) (("SenderEmailAddress").data)
    (by decide) (by decide) (by decide)
    ⟨DataTypeError.UnknownCode (("0x9999").data), by decide⟩

/-- Claim C10: whenever `MsgStream.create` returns a stream, its parent is
the parent storage argument unchanged, and its kind is `PropertyStream`
exactly when the name is the literal `"__properties_version1.0"` (the key
then being that literal name), and `SubStorage` otherwise. -/
theorem c10_stream_invariants (name : List Char) (entry : List Nat)
    (prop_map : PropIdNameMap) (parent : StorageType) (s : MsgStream)
    (h : MsgStream.create name entry prop_map parent = CResult.csome s) :
    s.parent = parent
    ∧ (name = ("__properties_version1.0").data →
      s.streamKind = StreamType.PropertyStream ∧ s.key = name)
    ∧ (name ≠ ("__properties_version1.0").data →
      s.streamKind = StreamType.SubStorage) := by
  unfold MsgStream.create at h
  cases hst : stream_type name with
  | none => rw [hst] at h; exact absurd h (by simp)
  | some st =>
      rw [hst] at h
      cases st with
      | PropertyStream =>
          have hn : name = ("__properties_version1.0").data := by
            by_contra hn
            unfold stream_type at hst
            rw [if_neg hn] at hst
            by_cases hp : List.isPrefixOf (("__substg1.0").data) name = true
            · rw [if_pos hp] at hst
              exact absurd hst (by simp)
            · rw [if_neg hp] at hst
              exact absurd hst (by simp)
          cases hdec : decode_vec entry (("0x0102").data) with
          | panicked => rw [hdec] at h; exact absurd h (by simp)
          | failed e => rw [hdec] at h; exact absurd h (by simp)
          | ok v =>
              rw [hdec] at h
              simp only [CResult.csome.injEq] at h
              subst h
              exact ⟨rfl, fun _ => ⟨rfl, rfl⟩, fun hne => absurd hn hne⟩
      | SubStorage =>
          have hn : name ≠ ("__properties_version1.0").data := by
            intro hn
            unfold stream_type at hst
            rw [if_pos hn] at hst
            exact absurd hst (by simp)
          cases hex : extract_id_and_datatype name with
          | none => rw [hex] at h; exact absurd h (by simp)
          | some pr =>
              obtain ⟨pid, pty⟩ := pr
              rw [hex] at h
              cases hkey : prop_map pid with
              | none => simp only [hkey] at h; exact absurd h (by simp)
              | some key =>
                  simp only [hkey] at h
                  cases hdec : decode_vec entry pty with
                  | panicked => rw [hdec] at h; exact absurd h (by simp)
                  | failed e => rw [hdec] at h; exact absurd h (by simp)
                  | ok v =>
                      rw [hdec] at h
                      simp only [CResult.csome.injEq] at h
                      subst h
                      exact ⟨rfl, fun hp => absurd hp hn, fun _ => rfl⟩

/-- Claim C10 witness: the property stream built from the literal name
keeps the parent storage and carries the `PropertyStream` kind with the
literal key. -/
theorem c10_stream_invariants_witness :
    MsgStream.create (("__properties_version1.0").data) [7] (fun _ => none)
        (StorageType.Recipient 3)
      = CResult.csome ⟨StorageType.Recipient 3, ("__properties_version1.0").data,
          DataType.PtypBinary [7], StreamType.PropertyStream⟩
    ∧ (⟨StorageType.Recipient 3, ("__properties_version1.0").data,
          DataType.PtypBinary [7], StreamType.PropertyStream⟩ : MsgStream).parent
        = StorageType.Recipient 3
    ∧ (⟨StorageType.Recipient 3, ("__properties_version1.0").data,
          DataType.PtypBinary [7], StreamType.PropertyStream⟩ : MsgStream).streamKind
        = StreamType.PropertyStream := by
  have hcreate : MsgStream.create (("__properties_version1.0").data) [7] (fun _ => none)
      (StorageType.Recipient 3)
      = CResult.csome ⟨StorageType.Recipient 3, ("__properties_version1.0").data,
          DataType.PtypBinary [7], StreamType.PropertyStream⟩ := by decide
  obtain ⟨h1, h2, _⟩ := c10_stream_invariants _ [7] (fun _ => none)
    (StorageType.Recipient 3) _ hcreate
  exact ⟨hcreate, h1, (h2 rfl).1⟩
